import Mathlib

/-!
Verification of the FitBuddy weight-tracking application core against its
specification.  The TypeScript source is shallowly embedded: JavaScript
numbers are modelled by `JSNum` (an exact rational together with the IEEE
special values `NaN`, `+Infinity`, `-Infinity`; rounding of doubles is not
modelled, which is faithful for every concrete value appearing in the spec's
scenarios since those are all dyadic rationals and the claims are stated in
exact arithmetic), JavaScript strings by `List Char`, and timestamps
(milliseconds since the Unix epoch, as produced by `Date`) by `Int`.
-/

namespace FitBuddy

/-- JavaScript (IEEE-754 double) numbers, with the exact finite values kept as
rationals.  `fin q` is a finite value, the other constructors are the IEEE
special values produced by unguarded arithmetic. -/
inductive JSNum where
  | nan : JSNum
  | posInf : JSNum
  | negInf : JSNum
  | fin : ℚ → JSNum
deriving DecidableEq, Repr, Inhabited

namespace JSNum

/-- JavaScript subtraction `a - b` on `JSNum` (IEEE semantics for the special
values, exact arithmetic on finite values). -/
def sub : JSNum → JSNum → JSNum
  | nan, _ => nan
  | _, nan => nan
  | posInf, posInf => nan
  | posInf, _ => posInf
  | negInf, negInf => nan
  | negInf, _ => negInf
  | fin _, posInf => negInf
  | fin _, negInf => posInf
  | fin a, fin b => fin (a - b)

/-- JavaScript multiplication `a * b` on `JSNum`. -/
def mul : JSNum → JSNum → JSNum
  | nan, _ => nan
  | _, nan => nan
  | posInf, posInf => posInf
  | posInf, negInf => negInf
  | posInf, fin b => if b = 0 then nan else if 0 < b then posInf else negInf
  | negInf, posInf => negInf
  | negInf, negInf => posInf
  | negInf, fin b => if b = 0 then nan else if 0 < b then negInf else posInf
  | fin a, posInf => if a = 0 then nan else if 0 < a then posInf else negInf
  | fin a, negInf => if a = 0 then nan else if 0 < a then negInf else posInf
  | fin a, fin b => fin (a * b)

/-- JavaScript division `a / b` on `JSNum`.  Division of a nonzero finite
value by zero yields a signed infinity (the finite zero is `+0`), and `0 / 0`
yields `NaN` — this is the behaviour `getProgressToGoal` runs into when
`starting_weight == target_weight`. -/
def div : JSNum → JSNum → JSNum
  | nan, _ => nan
  | _, nan => nan
  | posInf, posInf => nan
  | posInf, negInf => nan
  | negInf, posInf => nan
  | negInf, negInf => nan
  | posInf, fin b => if 0 ≤ b then posInf else negInf
  | negInf, fin b => if 0 ≤ b then negInf else posInf
  | fin _, posInf => fin 0
  | fin _, negInf => fin 0
  | fin a, fin b =>
    if b = 0 then (if a = 0 then nan else if 0 < a then posInf else negInf)
    else fin (a / b)

/-- JavaScript `Math.min(a, b)`: `NaN` if either argument is `NaN`. -/
def jsMin : JSNum → JSNum → JSNum
  | nan, _ => nan
  | _, nan => nan
  | negInf, _ => negInf
  | _, negInf => negInf
  | posInf, b => b
  | a, posInf => a
  | fin a, fin b => fin (min a b)

/-- JavaScript `Math.max(a, b)`: `NaN` if either argument is `NaN`. -/
def jsMax : JSNum → JSNum → JSNum
  | nan, _ => nan
  | _, nan => nan
  | posInf, _ => posInf
  | _, posInf => posInf
  | negInf, b => b
  | a, negInf => a
  | fin a, fin b => fin (max a b)

/-- JavaScript `Math.round`: round half toward positive infinity, i.e.
`⌊x + 1/2⌋` on finite values; special values pass through. -/
def jsRound : JSNum → JSNum
  | nan => nan
  | posInf => posInf
  | negInf => negInf
  | fin a => fin (⌊a + 1/2⌋ : ℤ)

end JSNum

/-- One weight entry as held in the client's `weightEntries` state
(`WeightEntry` in `src/lib/localStorage.ts`).  `date` is the timestamp (ms
since epoch) denoted by the entry's ISO `YYYY-MM-DD` date string, i.e. the
UTC midnight of that calendar day; the `id`/`created_at`/`updated_at`
bookkeeping fields are not modelled since no claim mentions them. -/
structure WeightEntry where
  user_id : String
  date : Int
  weight : JSNum
  notes : Option String := none
deriving DecidableEq, Repr, Inhabited

/-- The goal-related fields of `UserProfile` (src/lib/localStorage.ts) used by
the dashboard aggregation functions. -/
structure UserProfile where
  starting_weight : JSNum
  target_weight : JSNum
deriving DecidableEq, Repr, Inhabited

/-- Milliseconds in one day. -/
def dayMs : Int := 86400000

/-- The timestamp of the UTC midnight of the calendar day containing the
instant `ts`: this is the date stored by
`new Date(ts).toISOString().split("T")[0]` in `addWeight`
(`src/contexts/AuthContext.tsx`, line 377), since `toISOString` always
renders the UTC calendar date. -/
def utcMidnight (ts : Int) : Int := (ts.fdiv dayMs) * dayMs

/-- The timestamp of the *local* midnight of the calendar day containing the
instant `ts` for a caller whose local wall clock is `tzOffsetMs` milliseconds
ahead of UTC.  This is the "caller's current local calendar date" the spec
speaks about; it differs from `utcMidnight ts` whenever the offset moves the
instant across a UTC midnight. -/
def localMidnight (ts tzOffsetMs : Int) : Int := ((ts + tzOffsetMs).fdiv dayMs) * dayMs

/-- The weight normalisation performed by `addWeight`
(`src/contexts/AuthContext.tsx`, lines 375-376):
`rounded = Math.round(weight * 10) / 10; normalized = Math.min(1000, Math.max(0, rounded))`.
Note there is no finiteness check anywhere in the function. -/
def normalizeWeight (w : JSNum) : JSNum :=
  let rounded := JSNum.div (JSNum.jsRound (JSNum.mul w (.fin 10))) (.fin 10)
  JSNum.jsMin (.fin 1000) (JSNum.jsMax (.fin 0) rounded)

/-- The entry built by `addWeight` (`src/contexts/AuthContext.tsx`,
lines 396-404) and prepended to the local state: normalised weight, today's
date derived via `toISOString` (hence UTC), and the notes passed through. -/
def mkWeightEntry (uid : String) (w : JSNum) (notes : Option String) (ts : Int) : WeightEntry :=
  { user_id := uid, date := utcMidnight ts, weight := normalizeWeight w, notes := notes }

/-- Result of an `addWeight` call: the new `weightEntries` state and the
`error` field of the returned object. -/
structure AddWeightOutcome where
  entries : List WeightEntry
  error : Option String
deriving DecidableEq, Repr

/-- `addWeight` (`src/contexts/AuthContext.tsx`, lines 369-411) as it affects
the client state: with no user it returns an error and leaves the entries
alone; otherwise it normalises the weight, derives today's date from
`toISOString`, and replaces the entry list by the new entry followed by every
previous entry whose date differs from today
(`[newEntry, ...prev.filter((e) => e.date !== today)]`).  The Supabase upsert
keyed on `(user_id, entry_date)` mirrors the same replace-per-day semantics
on the server and is not separately modelled. -/
def addWeight (user : Option String) (w : JSNum) (notes : Option String) (ts : Int)
    (prev : List WeightEntry) : AddWeightOutcome :=
  match user with
  | none => { entries := prev, error := some "No user logged in" }
  | some uid =>
    { entries := mkWeightEntry uid w notes ts :: prev.filter (fun e => e.date ≠ utcMidnight ts),
      error := none }

/-- `getProgressToGoal` (`src/components/WeightDashboard.tsx`, lines 128-134):
returns 0 with no profile or no entries, otherwise
`Math.min((currentChange / totalChange) * 100, 100)` where
`currentWeight = weightEntries[0].weight` (the list is ordered most-recent
first, so index 0 is the latest weight), `totalChange = starting − target`
and `currentChange = starting − current`.  There is no guard for
`starting_weight == target_weight`. -/
def getProgressToGoal (profile : Option UserProfile) (entries : List WeightEntry) : JSNum :=
  match profile with
  | none => .fin 0
  | some p =>
    if entries.length = 0 then .fin 0
    else
      let currentWeight := (entries.headD default).weight
      let totalChange := JSNum.sub p.starting_weight p.target_weight
      let currentChange := JSNum.sub p.starting_weight currentWeight
      JSNum.jsMin (JSNum.mul (JSNum.div currentChange totalChange) (.fin 100)) (.fin 100)

/-! ### Calendar model for the time-period cutoffs (date-fns) -/

/-- Gregorian leap-year test. -/
def isLeapYear (y : Int) : Bool := (y % 4 = 0 && y % 100 ≠ 0) || y % 400 = 0

/-- Number of days in a Gregorian month (months numbered 1-12). -/
def daysInMonth (y m : Int) : Int :=
  if m = 2 then (if isLeapYear y then 29 else 28)
  else if m = 4 ∨ m = 6 ∨ m = 9 ∨ m = 11 then 30
  else 31

/-- Days from the Unix epoch (1970-01-01) to the civil date `y-m-d`
(proleptic Gregorian, months 1-12), by the standard civil-from-days integer
computation. -/
def daysFromCivil (y m d : Int) : Int :=
  let y' := if m ≤ 2 then y - 1 else y
  let era := y'.fdiv 400
  let yoe := y' - era * 400
  let mAdj := if 2 < m then m - 3 else m + 9
  let doy := (153 * mAdj + 2).fdiv 5 + d - 1
  let doe := yoe * 365 + yoe.fdiv 4 - yoe.fdiv 100 + doy
  era * 146097 + doe - 719468

/-- A wall-clock instant: civil date plus milliseconds elapsed in the day.
This is the `new Date()` value `now` from which the dashboard cutoffs are
computed (a timezone-free model: the calendar arithmetic of date-fns does not
depend on the offset, only on the wall-clock fields). -/
structure Civil where
  year : Int
  month : Int
  day : Int
  msOfDay : Int
deriving DecidableEq, Repr

/-- The timestamp (ms since epoch) of a wall-clock instant. -/
def Civil.toTimestamp (c : Civil) : Int :=
  daysFromCivil c.year c.month c.day * dayMs + c.msOfDay

/-- date-fns `addMonths(date, delta)`: move the month, clamping the
day-of-month to the length of the target month, keeping the time of day.
`subMonths(now, 1)` is `addMonths now (-1)` and `subYears(now, 1)` is
`addMonths now (-12)`. -/
def addMonths (c : Civil) (delta : Int) : Civil :=
  let total := c.month - 1 + delta
  let y := c.year + total.fdiv 12
  let m := total.fmod 12 + 1
  { year := y, month := m, day := min c.day (daysInMonth y m), msOfDay := c.msOfDay }

/-- The four selectable chart windows (`timePeriod` state). -/
inductive TimePeriod where
  | week
  | month
  | year
  | all
deriving DecidableEq, Repr

/-- The `cutoffDate` computed by the `switch (timePeriod)` in
`getWeightChange` (`src/components/WeightDashboard.tsx`, lines 98-111):
`subDays(now, 7)`, `subMonths(now, 1)`, `subYears(now, 1)`, or
`new Date(0)` (the epoch), as a timestamp. -/
def cutoffFor : TimePeriod → Civil → Int
  | .week, now => now.toTimestamp - 7 * dayMs
  | .month, now => (addMonths now (-1)).toTimestamp
  | .year, now => (addMonths now (-12)).toTimestamp
  | .all, _ => 0

/-- `getWeightChange` (`src/components/WeightDashboard.tsx`, lines 94-126):
0 with no entries; otherwise filter to entries with
`new Date(entry.date) >= cutoffDate`, return 0 if fewer than 2 remain, else
sort the window ascending by date (the stable JS sort with comparator
`dateA - dateB`, modelled by `mergeSort`) and return `latest - earliest`
(last minus first of the sorted window). -/
def getWeightChange (period : TimePeriod) (now : Civil) (entries : List WeightEntry) : JSNum :=
  if entries.length = 0 then .fin 0
  else
    let cutoffDate := cutoffFor period now
    let periodEntries := entries.filter (fun e => cutoffDate ≤ e.date)
    if periodEntries.length < 2 then .fin 0
    else
      let sortedByDate := periodEntries.mergeSort (fun a b => a.date ≤ b.date)
      JSNum.sub (sortedByDate.getLastD default).weight (sortedByDate.headD default).weight

/-! ### Friend-code generation (`Math.random().toString(36).slice(2, 8).toUpperCase()`,
`src/contexts/AuthContext.tsx` lines 208 and 348-351) -/

/-- The character for a base-36 digit as produced by `Number.toString(36)`:
`0`-`9` then lowercase `a`-`z`. -/
def base36Char (n : ℕ) : Char :=
  if n < 10 then Char.ofNat (48 + n) else Char.ofNat (87 + n)

/-- The fractional base-36 digits of a rational in `[0, 1)`, with fuel.
Every IEEE double is a dyadic rational, so its base-36 expansion terminates
(within 1100 digits for any double in `[0, 1)`); `Number.toString(36)` prints
exactly these digits for the values considered here. -/
def frac36 : ℚ → ℕ → List ℕ
  | _, 0 => []
  | r, fuel + 1 =>
    if r = 0 then []
    else (⌊r * 36⌋).toNat :: frac36 (r * 36 - ⌊r * 36⌋) fuel

/-- `r.toString(36)` for a double `r` in `[0, 1)` as a character list:
`"0"` for zero, otherwise `"0." ++ digits`. -/
def jsToString36 (r : ℚ) : List Char :=
  if r = 0 then ['0'] else '0' :: '.' :: (frac36 r 1100).map base36Char

/-- The friend code generated from one output `r` of `Math.random()`:
`Math.random().toString(36).slice(2, 8).toUpperCase()`.
`slice(2, 8)` drops the leading `"0."` and keeps at most the next 6
characters — when the base-36 string has fewer than 6 fractional digits the
resulting code is shorter than 6 characters. -/
def friendCodeOf (r : ℚ) : List Char :=
  (((jsToString36 r).drop 2).take 6).map Char.toUpper

/-! ### Add-friend workflow (`src/components/SharedDashboard.tsx`, lines 452-499) -/

/-- The outcome a click on "Add Friend" surfaces to the user (the `message`
state), classified by the spec's error taxonomy. -/
inductive AddFriendOutcome where
  | validationError : String → AddFriendOutcome
  | notFound : String → AddFriendOutcome
  | invalidOperation : String → AddFriendOutcome
  | success : AddFriendOutcome
deriving DecidableEq, Repr

/-- What one add-friend attempt did: the outcome, whether the
`get_user_id_by_friend_code` RPC lookup was invoked, and the resulting
relationship-edge list. -/
structure AddFriendTrace where
  outcome : AddFriendOutcome
  lookupCalled : Bool
  edges : List (String × String)
deriving DecidableEq, Repr

/-- The `user_friends` upsert keyed on `(user_id, friend_user_id)`:
idempotent insertion of a directed edge. -/
def upsertEdge (edges : List (String × String)) (e : String × String) : List (String × String) :=
  if e ∈ edges then edges else edges ++ [e]

/-- The whitespace characters removed by JavaScript `String.prototype.trim`
(the common ASCII subset suffices for the inputs considered). -/
def isJsSpace (c : Char) : Bool := c = ' ' || c = '\t' || c = '\n' || c = '\r'

/-- JavaScript `trim` on a character-list string. -/
def jsTrim (s : List Char) : List Char :=
  ((s.dropWhile isJsSpace).reverse.dropWhile isJsSpace).reverse

/-- JavaScript `toUpperCase` on a character-list string (ASCII). -/
def jsToUpper (s : List Char) : List Char := s.map Char.toUpper

/-- The add-friend click handler (`src/components/SharedDashboard.tsx`,
lines 461-499) as a pure step.  `rawInput` is what the user typed; the input
`onChange` handler stores it upper-cased (line 454), and the click handler
trims it, rejects a length ≠ 6 before any lookup, resolves the code via the
RPC (modelled by the function `resolve`), rejects a not-found code, rejects
the caller's own id before any insertion, and otherwise upserts the edge
`(caller, resolved)`.  RPC/DB failures (thrown errors) are outside this
happy-path model. -/
def addFriendClick (rawInput : List Char) (selfId : String)
    (resolve : List Char → Option String) (edges : List (String × String)) : AddFriendTrace :=
  let code := jsTrim (jsToUpper rawInput)
  if code.length ≠ 6 then
    { outcome := .validationError "Friend code should be 6 characters.",
      lookupCalled := false, edges := edges }
  else
    match resolve code with
    | none =>
      { outcome := .notFound "No user found with that code.",
        lookupCalled := true, edges := edges }
    | some friendUserId =>
      if friendUserId = selfId then
        { outcome := .invalidOperation "You can't add yourself.",
          lookupCalled := true, edges := edges }
      else
        { outcome := .success, lookupCalled := true,
          edges := upsertEdge edges (selfId, friendUserId) }

/-! ### Multi-user comparison series (`loadDashboardData`,
`src/components/SharedDashboard.tsx`, lines 88-91 and 125-153) -/

/-- One palette entry of the fixed four-colour palette (lines 125-130). -/
structure PaletteEntry where
  border : String
  bg : String
  label : String
deriving DecidableEq, Repr, Inhabited

/-- The fixed palette: Me, Friend 1, Friend 2, Friend 3. -/
def palette : List PaletteEntry :=
  [ { border := "#2563EB", bg := "rgba(37,99,235,0.1)", label := "Me" },
    { border := "#10B981", bg := "rgba(16,185,129,0.1)", label := "Friend 1" },
    { border := "#F59E0B", bg := "rgba(245,158,11,0.1)", label := "Friend 2" },
    { border := "#EF4444", bg := "rgba(239,68,68,0.1)", label := "Friend 3" } ]

/-- The styling fields of one built chart dataset. -/
structure Dataset where
  label : String
  borderColor : String
  backgroundColor : String
deriving DecidableEq, Repr, Inhabited

/-- `Array.from(new Set(friendIds))`: deduplication keeping the first
occurrence of each element, in order. -/
def dedupFirst : List String → List String
  | [] => []
  | a :: rest => a :: dedupFirst (rest.filter (fun x => x ≠ a))
termination_by l => l.length
decreasing_by
  simp only [List.length_cons]
  exact Nat.lt_succ_of_le (List.length_filter_le _ _)

/-- The dataset built for the user at arrival position `idx` (lines 140-153):
palette index `Math.min(idx, palette.length - 1)`, label `"Me"` for the
signed-in user and the resolved display name (or a truncated-id fallback)
otherwise, suffixed `" (lbs)"`. -/
def mkDataset (selfId : String) (idToName : String → Option String) (idx : ℕ) (id : String) :
    Dataset :=
  let p := palette.getD (min idx (palette.length - 1)) default
  let fallback := String.mk (id.toList.take 8) ++ "…"
  let labelBase := if id = selfId then "Me" else (idToName id).getD fallback
  { label := labelBase ++ " (lbs)", borderColor := p.border, backgroundColor := p.bg }

/-- The `allIds.forEach((id, idx) => ...)` loop carrying the arrival index. -/
def buildDatasetsAux (selfId : String) (idToName : String → Option String) :
    ℕ → List String → List Dataset
  | _, [] => []
  | idx, id :: rest => mkDataset selfId idToName idx id :: buildDatasetsAux selfId idToName (idx + 1) rest

/-- The comparison-series construction of `loadDashboardData`:
`allIds = [user.id, ...Array.from(new Set(friendIds))]` (line 91) puts the
signed-in user first, then each id gets its dataset by arrival position. -/
def buildDatasets (selfId : String) (idToName : String → Option String)
    (friendIds : List String) : List Dataset :=
  buildDatasetsAux selfId idToName 0 (selfId :: dedupFirst friendIds)

/-- The entries of the selected window: the filter performed by
`getWeightChange` before deciding the delta. -/
def windowEntries (period : TimePeriod) (now : Civil) (entries : List WeightEntry) :
    List WeightEntry :=
  entries.filter (fun e => cutoffFor period now ≤ e.date)

/-- The scenario sample list of the spec: `(d0, 195.0)`, `(d10, 190.0)`,
`(d20, 185.0)` with `d0` the epoch day and the following dates 10 and 20 days
later. -/
def scenarioEntries : List WeightEntry :=
  [ { user_id := "u", date := 0, weight := .fin 195 },
    { user_id := "u", date := 10 * dayMs, weight := .fin 190 },
    { user_id := "u", date := 20 * dayMs, weight := .fin 185 } ]

/-- At-most-one-entry-per-`(user_id, date)` invariant of the entry list. -/
def datesDistinct (l : List WeightEntry) : Prop :=
  l.Pairwise (fun a b => ¬(a.user_id = b.user_id ∧ a.date = b.date))

/-! ### Helper lemmas -/

/-- The head of a date-sorted entry list has the least date. -/
lemma headD_date_le_of_sorted (l : List WeightEntry)
    (hp : l.Pairwise (fun a b => a.date ≤ b.date)) :
    ∀ c ∈ l, (l.headD default).date ≤ c.date := by
  cases l with
  | nil => intro c hc; cases hc
  | cons a t =>
    intro c hc
    rcases List.mem_cons.mp hc with h | h
    · subst h; simp
    · exact (List.pairwise_cons.mp hp).1 c h

/-- `getLastD l d` is either `d` or a member of `l`. -/
lemma getLastD_mem_cons (l : List WeightEntry) (d : WeightEntry) :
    l.getLastD d ∈ d :: l := by
  induction l generalizing d with
  | nil => simp
  | cons a t ih =>
    rw [List.getLastD_cons]
    exact List.mem_cons_of_mem d (ih a)

/-- Every element of a date-sorted entry list has date at most that of the
last element. -/
lemma date_le_getLastD_of_sorted (l : List WeightEntry) (d : WeightEntry)
    (hp : l.Pairwise (fun a b => a.date ≤ b.date)) :
    ∀ c ∈ l, c.date ≤ (l.getLastD d).date := by
  induction l generalizing d with
  | nil => intro c hc; cases hc
  | cons a t ih =>
    intro c hc
    rw [List.getLastD_cons]
    obtain ⟨h1, h2⟩ := List.pairwise_cons.mp hp
    rcases List.mem_cons.mp hc with h | h
    · subst h
      rcases List.mem_cons.mp (getLastD_mem_cons t c) with h | h
      · rw [h]
      · exact h1 _ h
    · exact ih a h2 c h

/-- Filtering away a date and then keeping only that date yields nothing. -/
lemma filter_date_eq_of_filter_ne (d : Int) (l : List WeightEntry) :
    (l.filter (fun e => e.date ≠ d)).filter (fun e => e.date = d) = [] := by
  induction l with
  | nil => rfl
  | cons a t ih =>
    by_cases h : a.date = d
    · simp [List.filter_cons, h, ih]
    · simp [List.filter_cons, h, ih]

/-- The head of a non-empty list is a member. -/
lemma headD_mem_of_ne_nil (l : List WeightEntry) (h : l ≠ []) : l.headD default ∈ l := by
  cases l with
  | nil => exact absurd rfl h
  | cons a t => simp

/-- The last element of a non-empty list is a member. -/
lemma getLastD_mem_of_ne_nil (l : List WeightEntry) (h : l ≠ []) : l.getLastD default ∈ l := by
  cases l with
  | nil => exact absurd rfl h
  | cons a t =>
    rw [List.getLastD_cons]
    exact getLastD_mem_cons t a

/-- `getWeightChange` rewritten through `windowEntries`: 0 when fewer than 2
entries fall in the window (this includes the empty-entries early return),
otherwise last minus first of the date-sorted window. -/
lemma getWeightChange_eq (p : TimePeriod) (now : Civil) (entries : List WeightEntry) :
    getWeightChange p now entries =
      if (windowEntries p now entries).length < 2 then .fin 0
      else
        JSNum.sub
          (((windowEntries p now entries).mergeSort
              (fun a b => a.date ≤ b.date)).getLastD default).weight
          (((windowEntries p now entries).mergeSort
              (fun a b => a.date ≤ b.date)).headD default).weight := by
  unfold getWeightChange windowEntries
  by_cases h0 : entries.length = 0
  · have h : entries = [] := List.length_eq_zero.mp h0
    subst h
    simp
  · rw [if_neg h0]

/-- The date comparator used by the dashboard sort is transitive and total,
so `mergeSort` yields a date-sorted permutation. -/
lemma mergeSort_date_sorted (l : List WeightEntry) :
    (l.mergeSort (fun a b => a.date ≤ b.date)).Pairwise
      (fun a b : WeightEntry => a.date ≤ b.date) := by
  have ht : ∀ (a b c : WeightEntry), decide (a.date ≤ b.date) = true →
      decide (b.date ≤ c.date) = true → decide (a.date ≤ c.date) = true := by
    intro a b c hab hbc
    simp only [decide_eq_true_eq] at *
    exact le_trans hab hbc
  have htot : ∀ (a b : WeightEntry),
      (decide (a.date ≤ b.date) || decide (b.date ≤ a.date)) = true := by
    intro a b
    simpa using le_total a.date b.date
  have h := List.sorted_mergeSort ht htot l
  exact h.imp (fun hab => by simpa using hab)

/-- With the "all" window the cutoff is the epoch, so the scenario entries
all survive the filter. -/
lemma windowEntries_all_scenario :
    windowEntries .all ⟨2025, 10, 11, 0⟩ scenarioEntries = scenarioEntries := by
  simp [windowEntries, scenarioEntries, cutoffFor, dayMs, List.filter]

/-- `frac36` of zero is empty for any fuel. -/
lemma frac36_zero (n : ℕ) : frac36 0 n = [] := by
  cases n <;> simp [frac36]

/-- `buildDatasetsAux` builds one dataset per id. -/
lemma buildDatasetsAux_length (selfId : String) (idToName : String → Option String) :
    ∀ (ids : List String) (k : ℕ),
      (buildDatasetsAux selfId idToName k ids).length = ids.length := by
  intro ids
  induction ids with
  | nil => intro k; rfl
  | cons a t ih => intro k; simp [buildDatasetsAux, ih]

/-- The dataset at position `i` is the one built for the id at position `i`,
with arrival index shifted by the accumulator. -/
lemma buildDatasetsAux_getD (selfId : String) (idToName : String → Option String) :
    ∀ (ids : List String) (k i : ℕ), i < ids.length →
      (buildDatasetsAux selfId idToName k ids).getD i default =
        mkDataset selfId idToName (k + i) (ids.getD i "") := by
  intro ids
  induction ids with
  | nil => intro k i h; simp at h
  | cons a t ih =>
    intro k i h
    cases i with
    | zero => simp [buildDatasetsAux]
    | succ j =>
      simp only [buildDatasetsAux, List.getD_cons_succ]
      rw [ih (k + 1) j (by simpa using h)]
      congr 1
      omega

/-! ### Claim theorems -/

/-- Claim C1: the spec asserts that for a profile with
`starting_weight = target_weight` and a non-empty entry list,
`getProgressToGoal` returns the finite 0 / "no goal" sentinel because the
division is guarded.  The code has no such guard: with starting = target =
180 and latest weight 180 the computation is `0/0 * 100`, which is `NaN`,
and with latest weight 190 it is `-10/0 * 100 = -Infinity` — in neither
case the 0 sentinel, and in neither case finite. -/
theorem getProgressToGoal_equal_goal_not_guarded :
    getProgressToGoal (some { starting_weight := .fin 180, target_weight := .fin 180 })
        [{ user_id := "u", date := 0, weight := .fin 180 }] = .nan ∧
    getProgressToGoal (some { starting_weight := .fin 180, target_weight := .fin 180 })
        [{ user_id := "u", date := 0, weight := .fin 190 }] = .negInf ∧
    (JSNum.nan ≠ .fin 0) ∧ (JSNum.negInf ≠ .fin 0) := by
  refine ⟨?_, ?_, by simp, by simp⟩ <;>
    norm_num [getProgressToGoal, JSNum.sub, JSNum.div, JSNum.mul, JSNum.jsMin]

/-- Claim C2: `getWeightChange` filters entries to those with date at or
after the window cutoff (`now − 7d` for week, `now` minus one calendar
month/year via the day-clamping calendar arithmetic for month/year, the
epoch for all); with fewer than 2 entries in the window it returns the zero
sentinel, otherwise it returns the weight of the chronologically latest
in-window entry minus the weight of the chronologically earliest one
(endpoints by date, not list position); and on the spec scenario
`[(d0,195),(d10,190),(d20,185)]` with window "all" it returns −10. -/
theorem getWeightChange_windowed_delta (p : TimePeriod) (now : Civil)
    (entries : List WeightEntry) :
    ((windowEntries p now entries).length < 2 → getWeightChange p now entries = .fin 0) ∧
    (2 ≤ (windowEntries p now entries).length →
      ∃ a ∈ windowEntries p now entries, ∃ b ∈ windowEntries p now entries,
        (∀ c ∈ windowEntries p now entries, a.date ≤ c.date ∧ c.date ≤ b.date) ∧
        getWeightChange p now entries = JSNum.sub b.weight a.weight) ∧
    (cutoffFor .week now = now.toTimestamp - 7 * dayMs ∧ cutoffFor .all now = 0) ∧
    getWeightChange .all ⟨2025, 10, 11, 0⟩ scenarioEntries = .fin (-10) := by
  refine ⟨?_, ?_, ⟨rfl, rfl⟩, ?_⟩
  · intro h
    rw [getWeightChange_eq, if_pos h]
  · intro h2
    have hperm : ((windowEntries p now entries).mergeSort
        (fun a b => a.date ≤ b.date)).Perm (windowEntries p now entries) :=
      List.mergeSort_perm _ _
    have hpw := mergeSort_date_sorted (windowEntries p now entries)
    have hlen : ((windowEntries p now entries).mergeSort
        (fun a b => a.date ≤ b.date)).length = (windowEntries p now entries).length :=
      List.length_mergeSort _
    have hne : (windowEntries p now entries).mergeSort
        (fun a b => a.date ≤ b.date) ≠ [] := by
      intro h
      rw [h] at hlen
      simp only [List.length_nil] at hlen
      omega
    refine ⟨((windowEntries p now entries).mergeSort
        (fun a b => a.date ≤ b.date)).headD default,
      hperm.mem_iff.mp (headD_mem_of_ne_nil _ hne),
      ((windowEntries p now entries).mergeSort
        (fun a b => a.date ≤ b.date)).getLastD default,
      hperm.mem_iff.mp (getLastD_mem_of_ne_nil _ hne), ?_, ?_⟩
    · intro c hc
      have hcs : c ∈ (windowEntries p now entries).mergeSort
          (fun a b => a.date ≤ b.date) := hperm.mem_iff.mpr hc
      exact ⟨headD_date_le_of_sorted _ hpw c hcs,
        date_le_getLastD_of_sorted _ default hpw c hcs⟩
    · rw [getWeightChange_eq, if_neg (not_lt.mpr h2)]
  · rw [getWeightChange_eq, windowEntries_all_scenario]
    rw [if_neg (by simp [scenarioEntries])]
    rw [List.mergeSort_of_sorted (by simp [scenarioEntries, dayMs])]
    simp only [scenarioEntries, List.getLastD_cons, List.getLastD, List.headD_cons, JSNum.sub]
    norm_num

/-- Witness for claim C2: on the spec scenario the window holds 3 ≥ 2
entries and the delta is the latest minus the earliest weight. -/
theorem getWeightChange_windowed_delta_witness :
    2 ≤ (windowEntries .all ⟨2025, 10, 11, 0⟩ scenarioEntries).length ∧
    (∃ a ∈ windowEntries .all ⟨2025, 10, 11, 0⟩ scenarioEntries,
      ∃ b ∈ windowEntries .all ⟨2025, 10, 11, 0⟩ scenarioEntries,
        (∀ c ∈ windowEntries .all ⟨2025, 10, 11, 0⟩ scenarioEntries,
          a.date ≤ c.date ∧ c.date ≤ b.date) ∧
        getWeightChange .all ⟨2025, 10, 11, 0⟩ scenarioEntries = JSNum.sub b.weight a.weight) := by
  have h2 : 2 ≤ (windowEntries .all ⟨2025, 10, 11, 0⟩ scenarioEntries).length := by
    rw [windowEntries_all_scenario]
    simp [scenarioEntries]
  exact ⟨h2, (getWeightChange_windowed_delta .all ⟨2025, 10, 11, 0⟩ scenarioEntries).2.1 h2⟩

/-- Claim C3: for a profile with `starting_weight ≠ target_weight` and a
non-empty entry list, `getProgressToGoal` returns
`min(((starting − latest) / (starting − target)) × 100, 100)` where the
latest weight is the head of the (most-recent-first) entry list; in the
spec scenario (starting 195, target 180, latest 187.5) it is exactly 50, and
with latest weight 200 it is −100/3 < 0, showing the absence of a lower
clamp. -/
theorem getProgressToGoal_formula :
    (∀ (s t w : ℚ) (uid : String) (d : Int) (notes : Option String) (rest : List WeightEntry),
      s ≠ t →
      getProgressToGoal (some { starting_weight := .fin s, target_weight := .fin t })
          ({ user_id := uid, date := d, weight := .fin w, notes := notes } :: rest)
        = .fin (min ((s - w) / (s - t) * 100) 100)) ∧
    getProgressToGoal (some { starting_weight := .fin 195, target_weight := .fin 180 })
        [{ user_id := "u", date := 0, weight := .fin (375/2) }] = .fin 50 ∧
    getProgressToGoal (some { starting_weight := .fin 195, target_weight := .fin 180 })
        [{ user_id := "u", date := 0, weight := .fin 200 }] = .fin (-100/3) ∧
    (-100/3 : ℚ) < 0 := by
  refine ⟨?_,
    by norm_num [getProgressToGoal, JSNum.sub, JSNum.div, JSNum.mul, JSNum.jsMin],
    by norm_num [getProgressToGoal, JSNum.sub, JSNum.div, JSNum.mul, JSNum.jsMin],
    by norm_num⟩
  intro s t w uid d notes rest hst
  have hst' : s - t ≠ 0 := sub_ne_zero_of_ne hst
  simp only [getProgressToGoal, List.length_cons, Nat.succ_ne_zero, if_false, List.headD_cons,
    JSNum.sub, JSNum.div, if_neg hst', JSNum.mul, JSNum.jsMin]

/-- Witness for claim C3 at the spec scenario: starting 195, target 180,
latest weight 187.5 gives exactly 50 percent. -/
theorem getProgressToGoal_formula_witness :
    getProgressToGoal (some { starting_weight := .fin 195, target_weight := .fin 180 })
        [{ user_id := "u", date := 0, weight := .fin (375/2) }]
      = .fin (min ((195 - 375/2) / (195 - 180) * 100) 100) :=
  getProgressToGoal_formula.1 195 180 (375/2) "u" 0 none [] (by norm_num)

/-- Claim C4 (counterexample): the claim says the stored date is the
caller's current local calendar date; the code derives it from
`toISOString`, which renders the UTC calendar date.  At the instant
`ts = 0` (1970-01-01T00:00Z) a caller whose clock is one hour behind UTC
(local wall time 1969-12-31T23:00) has local calendar day 1969-12-31
(timestamp −86400000), but the entry is stored with date 1970-01-01
(timestamp 0). -/
theorem addWeight_local_date_counterexample :
    ((addWeight (some "u") (.fin 150) none 0 []).entries.map WeightEntry.date = [0]) ∧
    localMidnight 0 (-3600000) = -86400000 ∧
    ¬((0 : Int) = -86400000) := by
  refine ⟨?_, by decide, by decide⟩
  simp [addWeight, mkWeightEntry, utcMidnight, dayMs]

/-- Claim C4 (amended): for every finite weight input `q`, `addWeight`
stores an entry whose weight is the input rounded to one decimal place
(JavaScript `Math.round`, half toward +∞) and then clamped to [0, 1000]
(rounding before clamping), and whose date is the current **UTC** calendar
date of the submission instant (the date part of `toISOString`), which can
differ from the local calendar date.  No error is signalled. -/
theorem addWeight_normalization_utc_date (q : ℚ) (uid : String) (notes : Option String)
    (ts : Int) (prev : List WeightEntry) :
    (addWeight (some uid) (.fin q) notes ts prev).entries.headD default =
      { user_id := uid, date := utcMidnight ts,
        weight := .fin (min 1000 (max 0 (((⌊q * 10 + 1/2⌋ : ℤ) : ℚ) / 10))),
        notes := notes } ∧
    (addWeight (some uid) (.fin q) notes ts prev).error = none := by
  constructor
  · simp only [addWeight, List.headD_cons, mkWeightEntry, normalizeWeight,
      JSNum.mul, JSNum.jsRound, JSNum.div, JSNum.jsMax, JSNum.jsMin]
    norm_num
  · rfl

/-- Claim C5: the spec requires non-finite weight inputs to be rejected with
a `ValidationError` and no entry created.  `addWeight` has no finiteness
check: a `NaN` input is stored as a `NaN` entry, `+Infinity` is silently
clamped to 1000, `-Infinity` to 0, and in every case the call reports
success (`error = null`). -/
theorem addWeight_nonfinite_not_rejected :
    addWeight (some "u") .nan none 0 [] =
      { entries := [{ user_id := "u", date := 0, weight := .nan, notes := none }],
        error := none } ∧
    addWeight (some "u") .posInf none 0 [] =
      { entries := [{ user_id := "u", date := 0, weight := .fin 1000, notes := none }],
        error := none } ∧
    addWeight (some "u") .negInf none 0 [] =
      { entries := [{ user_id := "u", date := 0, weight := .fin 0, notes := none }],
        error := none } := by
  refine ⟨?_, ?_, ?_⟩ <;>
    norm_num [addWeight, mkWeightEntry, normalizeWeight, utcMidnight, dayMs,
      JSNum.mul, JSNum.jsRound, JSNum.div, JSNum.jsMax, JSNum.jsMin]

/-- Claim C6: for every typed friend-code string whose normalised
(upper-cased at input, trimmed at submit) length is not 6, the add-friend
click handler surfaces the "Friend code should be 6 characters." validation
message, performs no lookup call, and leaves the edge list unchanged. -/
theorem addFriend_length_validation (raw : List Char) (selfId : String)
    (resolve : List Char → Option String) (edges : List (String × String))
    (h : (jsTrim (jsToUpper raw)).length ≠ 6) :
    addFriendClick raw selfId resolve edges =
      { outcome := .validationError "Friend code should be 6 characters.",
        lookupCalled := false, edges := edges } := by
  simp [addFriendClick, h]

/-- Witness for claim C6 at the spec scenario: code entry "abc12"
(5 characters) is rejected with no lookup. -/
theorem addFriend_length_validation_witness :
    addFriendClick "abc12".toList "me" (fun _ => some "them") [] =
      { outcome := .validationError "Friend code should be 6 characters.",
        lookupCalled := false, edges := [] } :=
  addFriend_length_validation _ _ _ _ (by decide)

/-- Claim C7: when the (well-formed, 6-character) code resolves to the
caller's own user id, the add-friend click handler fails with the
"You can't add yourself." message and inserts no edge — the relationship
store is unchanged (the lookup itself did run). -/
theorem addFriend_self_rejected (raw : List Char) (selfId : String)
    (resolve : List Char → Option String) (edges : List (String × String))
    (hlen : (jsTrim (jsToUpper raw)).length = 6)
    (hres : resolve (jsTrim (jsToUpper raw)) = some selfId) :
    addFriendClick raw selfId resolve edges =
      { outcome := .invalidOperation "You can't add yourself.",
        lookupCalled := true, edges := edges } := by
  simp [addFriendClick, hlen, hres]

/-- Witness for claim C7: a 6-character code resolving to the caller leaves
the single pre-existing edge untouched. -/
theorem addFriend_self_rejected_witness :
    addFriendClick "ABC123".toList "me" (fun _ => some "me") [("me", "x")] =
      { outcome := .invalidOperation "You can't add yourself.",
        lookupCalled := true, edges := [("me", "x")] } :=
  addFriend_self_rejected _ _ _ _ (by decide) rfl

/-- Claim C8: the spec asserts every generated friend code is exactly 6
uppercase alphanumeric characters for every value of the randomness source.
The generator `Math.random().toString(36).slice(2, 8).toUpperCase()` is not
fixed-length: `Math.random()` may return 0 (string "0", code "") or 0.5
(string "0.i", code "I"), both shorter than 6 characters. -/
theorem friendCode_shorter_than_6 :
    friendCodeOf 0 = [] ∧ friendCodeOf (1/2) = ['I'] ∧
    (friendCodeOf 0).length ≠ 6 ∧ (friendCodeOf (1/2)).length ≠ 6 := by
  have h0 : friendCodeOf 0 = [] := by simp [friendCodeOf, jsToString36]
  have h1 : frac36 (1/2) 1100 = [18] := by
    rw [show (1100 : ℕ) = 1099 + 1 from rfl, frac36,
      if_neg (by norm_num : ¬((1/2 : ℚ) = 0)),
      show (⌊(1/2 : ℚ) * 36⌋ : ℤ) = 18 from by norm_num,
      show ((1/2 : ℚ) * 36 - ((18 : ℤ) : ℚ)) = 0 from by norm_num,
      frac36_zero]
    rfl
  have hh : friendCodeOf (1/2) = ['I'] := by
    rw [friendCodeOf, jsToString36, if_neg (by norm_num : ¬((1/2 : ℚ) = 0)), h1]
    decide
  exact ⟨h0, hh, by rw [h0]; simp, by rw [hh]; simp⟩

/-- Claim C9: `addWeight` preserves the at-most-one-entry-per-(user, date)
invariant of the entry list (the new entry replaces every same-day entry),
and submitting twice on the same day leaves exactly one entry for that day,
holding the second submission. -/
theorem addWeight_per_day_uniqueness (uid : String) (w w2 : JSNum) (n n2 : Option String)
    (ts : Int) (prev : List WeightEntry) (hinv : datesDistinct prev) :
    datesDistinct (addWeight (some uid) w n ts prev).entries ∧
    ((addWeight (some uid) w2 n2 ts
        (addWeight (some uid) w n ts prev).entries).entries.filter
      (fun e => e.date = utcMidnight ts)) = [mkWeightEntry uid w2 n2 ts] := by
  constructor
  · show datesDistinct
      (mkWeightEntry uid w n ts :: prev.filter (fun e => e.date ≠ utcMidnight ts))
    refine List.pairwise_cons.mpr ⟨?_, List.Pairwise.filter _ hinv⟩
    intro e he hcontra
    have hdate : e.date ≠ utcMidnight ts := by
      have hmem := List.of_mem_filter he
      simpa using hmem
    exact hdate hcontra.2.symm
  · show ((mkWeightEntry uid w2 n2 ts ::
        (mkWeightEntry uid w n ts ::
          prev.filter (fun e => e.date ≠ utcMidnight ts)).filter
          (fun e => e.date ≠ utcMidnight ts)).filter
        (fun e => e.date = utcMidnight ts)) = [mkWeightEntry uid w2 n2 ts]
    rw [List.filter_cons, List.filter_cons]
    norm_num [mkWeightEntry]

/-- Witness for claim C9: starting from one entry two days earlier,
submitting 150 then 151 on the same day keeps the invariant and leaves
exactly one entry for that day, holding 151. -/
theorem addWeight_per_day_uniqueness_witness :
    datesDistinct (addWeight (some "u") (.fin 150) none (2 * dayMs)
      [{ user_id := "u", date := 0, weight := .fin 140 }]).entries ∧
    ((addWeight (some "u") (.fin 151) none (2 * dayMs)
        (addWeight (some "u") (.fin 150) none (2 * dayMs)
          [{ user_id := "u", date := 0, weight := .fin 140 }]).entries).entries.filter
      (fun e => e.date = utcMidnight (2 * dayMs))) =
      [mkWeightEntry "u" (.fin 151) none (2 * dayMs)] :=
  addWeight_per_day_uniqueness "u" (.fin 150) (.fin 151) none none (2 * dayMs) _
    (by simp [datesDistinct])

/-- Claim C10: in the comparison-series construction the signed-in user is
always at position 0, labelled "Me" and styled with the first palette
colour, and the palette index is clamped to the last palette entry: every
user at arrival position 3 or later receives the identical fourth palette
colour, so a fourth friend and beyond are indistinguishable by colour from
the third friend. -/
theorem sharedDashboard_palette_assignment (selfId : String)
    (idToName : String → Option String) (friendIds : List String) :
    (buildDatasets selfId idToName friendIds).headD default =
      { label := "Me (lbs)", borderColor := "#2563EB",
        backgroundColor := "rgba(37,99,235,0.1)" } ∧
    ∀ i, 3 ≤ i → i < (buildDatasets selfId idToName friendIds).length →
      ((buildDatasets selfId idToName friendIds).getD i default).borderColor = "#EF4444" ∧
      ((buildDatasets selfId idToName friendIds).getD i default).backgroundColor =
        "rgba(239,68,68,0.1)" := by
  constructor
  · show (buildDatasetsAux selfId idToName 0 (selfId :: dedupFirst friendIds)).headD default = _
    simp [buildDatasetsAux, mkDataset, palette]
  · intro i h3 hlen
    have hlen' : i < (selfId :: dedupFirst friendIds).length := by
      rwa [buildDatasets, buildDatasetsAux_length] at hlen
    rw [buildDatasets, buildDatasetsAux_getD selfId idToName _ 0 i hlen']
    have hmin : min (0 + i) (palette.length - 1) = 3 := by
      simp only [palette, List.length_cons, List.length_nil]
      omega
    refine ⟨?_, ?_⟩ <;> simp only [mkDataset, hmin] <;> decide

/-- Witness for claim C10: with four friends, the friend at arrival
position 4 gets the same (fourth) palette colour as the one at position 3. -/
theorem sharedDashboard_palette_assignment_witness :
    (3 ≤ 4 ∧ 4 < (buildDatasets "me" (fun _ => none) ["a", "b", "c", "d"]).length) ∧
    ((buildDatasets "me" (fun _ => none) ["a", "b", "c", "d"]).getD 4 default).borderColor =
      "#EF4444" ∧
    ((buildDatasets "me" (fun _ => none) ["a", "b", "c", "d"]).getD 3 default).borderColor =
      "#EF4444" := by
  have hlen : 4 < (buildDatasets "me" (fun _ => none) ["a", "b", "c", "d"]).length := by
    rw [buildDatasets, buildDatasetsAux_length]
    simp [dedupFirst]
  exact ⟨⟨by norm_num, hlen⟩,
    ((sharedDashboard_palette_assignment "me" (fun _ => none) ["a", "b", "c", "d"]).2
      4 (by norm_num) hlen).1,
    ((sharedDashboard_palette_assignment "me" (fun _ => none) ["a", "b", "c", "d"]).2
      3 (by norm_num) (by omega)).1⟩

end FitBuddy
